import Mathlib

set_option maxHeartbeats 1000000

/-!
Shallow embedding of the A.L.T.A-NVR core (camera manager, recording
manager, detection engine) and verification of its specification claims.

Times are modelled as integers (seconds since epoch) except where the
source divides times, where rationals are used.  File paths are opaque
natural-number identifiers.  The filesystem is a list of file entries;
an entry whose `raises` flag is set models a file whose deletion fails
with an error other than "not found".
-/

namespace ALTA

/-! ## Frame queue (camera_manager.py, CameraStream.frame_queue)

`queue.Queue(maxsize=30)`: `full()` is true when `0 < maxsize ≤ qsize`,
`put_nowait` appends at the back.  The capture thread publishes with
`if not frame_queue.full(): frame_queue.put_nowait(frame)`. -/

structure FrameQueue where
  items : List Nat
  maxsize : Nat
deriving DecidableEq, Repr

/-- `queue.Queue.full`: true when `0 < maxsize` and `qsize ≥ maxsize`. -/
def FrameQueue.full (q : FrameQueue) : Bool :=
  decide (0 < q.maxsize ∧ q.maxsize ≤ q.items.length)

/-- camera_manager.py lines 158-163: the frame is enqueued only when the
queue is not full; a full queue leaves the queue unchanged. -/
def publishFrame (q : FrameQueue) (f : Nat) : FrameQueue :=
  if q.full then q else { q with items := q.items ++ [f] }

/-- Publishing a whole sequence of arriving frames, one at a time. -/
def publishAll (q : FrameQueue) (fs : List Nat) : FrameQueue :=
  fs.foldl publishFrame q

/-! ## Capture loop state (camera_manager.py, `_capture_thread`) -/

structure CaptureState where
  last_frame : Option Nat
  last_frame_time : ℚ
  fps : ℚ
  frame_count : Nat
  frame_queue : FrameQueue
deriving DecidableEq, Repr

/-- One event observed by one iteration of `_capture_thread`: a frame read
(`ret = True`) together with the two wall-clock readings the body makes
(`tArr` for `camera.last_frame_time = time.time()` and `tFps` for the
`time.time()` inside the fps computation), a failed read (`ret = False`),
or an exception in the loop body. -/
inductive CaptureEvent where
  | frame (f : Nat) (tArr tFps : ℚ)
  | readFail
  | exn
deriving DecidableEq, Repr

/-- One iteration of `_capture_thread` (camera_manager.py lines 144-167).
Returns the new state and the number of seconds slept (`time.sleep(1)` on
an exception, nothing otherwise).  On a successful read the code sets
`last_frame`, `last_frame_time`, increments `frame_count`, and when
`frame_count % 30 == 0` sets `fps = 30 / (time.time() - last_frame_time)`
— note that `last_frame_time` was assigned `tArr` just above, so the
denominator is `tFps - tArr`, not the span of the last 30 arrivals. -/
def captureStep (st : CaptureState) : CaptureEvent → CaptureState × Nat
  | .frame f tArr tFps =>
    let st1 : CaptureState :=
      { st with last_frame := some f, last_frame_time := tArr,
                frame_count := st.frame_count + 1 }
    let st2 : CaptureState :=
      if st1.frame_count % 30 = 0 then { st1 with fps := 30 / (tFps - tArr) }
      else st1
    ({ st2 with frame_queue := publishFrame st2.frame_queue f }, 0)
  | .readFail => (st, 0)
  | .exn => (st, 1)

/-- Run the capture loop over a list of events. -/
def runCapture (st : CaptureState) (evs : List CaptureEvent) : CaptureState :=
  evs.foldl (fun s e => (captureStep s e).1) st

/-- The initial capture state of a freshly added camera
(`CameraStream.__post_init__`: empty queue of capacity 30). -/
def initCaptureState : CaptureState :=
  { last_frame := none, last_frame_time := 0, fps := 0, frame_count := 0,
    frame_queue := { items := [], maxsize := 30 } }

/-! ## `start_camera` (camera_manager.py lines 85-120)

The camera state relevant to starting: whether the stream is marked
running and whether a capture handle has been assigned.  `start_camera`
returns its boolean result, the new state, and the backoff delay of any
retry it schedules — the source schedules none, so this is always `none`. -/

structure CamState where
  is_running : Bool
  hasCapture : Bool
deriving DecidableEq, Repr

/-- camera_manager.py `start_camera`: already-running cameras return True
unchanged; otherwise a capture is constructed (`camera.capture = ...`),
and if it failed to open the method logs and returns False — no retry is
scheduled anywhere.  On success `is_running` is set and the capture
thread starts. -/
def start_camera (opened : Bool) (st : CamState) : Bool × CamState × Option Nat :=
  if st.is_running then (true, st, none)
  else
    let st1 : CamState := { st with hasCapture := true }
    if opened then (true, { st1 with is_running := true }, none)
    else (false, st1, none)

/-! ## Recordings, filesystem and the catalog (recording_manager.py) -/

/-- A catalog row of the `recordings` table (database model referenced by
recording_manager.py).  Paths are opaque identifiers; times are integer
seconds.  `file_size` is the value stored at close, not necessarily the
current on-disk size. -/
structure Recording where
  id : Nat
  camera_id : Int
  start_time : Int
  end_time : Int
  file_path : Nat
  file_size : Nat
  duration : Int
  event_based : Bool
  created_at : Int
deriving DecidableEq, Repr

/-- An on-disk file: its path, its size as reported by `stat`, and whether
`unlink` raises an error other than "not found" on it. -/
structure FileEntry where
  path : Nat
  size : Nat
  raises : Bool
deriving DecidableEq, Repr

/-- The storage root: the set of files under it. -/
abbrev FS := List FileEntry

/-- `Path.exists` / `Path.stat` combined: the entry for a path, if any. -/
def FS.lookup (fs : FS) (p : Nat) : Option FileEntry :=
  fs.find? (fun e => e.path == p)

/-- `Path.unlink` on a path that exists and deletes cleanly. -/
def FS.remove (fs : FS) (p : Nat) : FS :=
  fs.filter (fun e => e.path != p)

/-- Total on-disk bytes under the storage root
(`for path in storage_path.rglob: total += stat.st_size`). -/
def fsTotal (fs : FS) : Nat :=
  (fs.map (fun e => e.size)).sum

/-! ## Registering a recording at segment close
(recording_manager.py `_recording_thread`, lines 101-120)

After `_record_video` returns, the thread reads the clock again for
`end_time`, computes `duration`, reads the file size
(`filepath.stat().st_size if filepath.exists() else 0`) and inserts the
row unconditionally — there is no validation of `end_time > start_time`.
The `Option` result expresses persisted (`some row`) versus rejected
(`none`); the source never rejects. -/
def closeRecording (camera_id : Int) (start_time end_time : Int)
    (file_path : Nat) (fs : FS) (event_based : Bool) : Option Recording :=
  some
    { id := 0
      camera_id := camera_id
      start_time := start_time
      end_time := end_time
      file_path := file_path
      file_size :=
        match FS.lookup fs file_path with
        | some e => e.size
        | none => 0
      duration := end_time - start_time
      event_based := event_based
      created_at := end_time }

/-! ## Age eviction (recording_manager.py `_cleanup_old_recordings`)

`cutoff_date = datetime.now() - timedelta(days=retention_days)`; rows
with `created_at < cutoff_date` are selected; for each, the file is
unlinked if it exists and the row deletion is added to the session; the
single `db.commit()` happens after the loop.  There is no per-item
exception handling: an `unlink` error aborts the whole pass and the
pending (uncommitted) row deletions are rolled back by `db.close()`;
files already unlinked stay unlinked. -/

def cutoffDate (retention_days now : Int) : Int :=
  now - retention_days * 86400

/-- Result of one eviction pass: the committed row deletions (ids), the
filesystem afterwards, and whether the pass raised. -/
structure PassResult where
  rowsDeleted : List Nat
  fs : FS
  errored : Bool
deriving DecidableEq, Repr

/-- The deletion loop of `_cleanup_old_recordings` over the selected
rows, carrying the pending (not yet committed) row deletions. -/
def cleanupGo : List Recording → FS → List Nat → PassResult
  | [], fs, pending => { rowsDeleted := pending.reverse, fs := fs, errored := false }
  | r :: rest, fs, pending =>
    match FS.lookup fs r.file_path with
    | some entry =>
      if entry.raises then { rowsDeleted := [], fs := fs, errored := true }
      else cleanupGo rest (FS.remove fs r.file_path) (r.id :: pending)
    | none => cleanupGo rest fs (r.id :: pending)

/-- `_cleanup_old_recordings` (lines 166-190). -/
def cleanup_old_recordings (retention_days now : Int)
    (recs : List Recording) (fs : FS) : PassResult :=
  cleanupGo (recs.filter (fun r => decide (r.created_at < cutoffDate retention_days now))) fs []

/-! ## Capacity eviction (recording_manager.py `_enforce_storage_limit`)

Total bytes under the root are computed; if at or under the limit the
pass returns without touching anything.  Otherwise rows are walked in
ascending `created_at` order; the loop breaks as soon as the running
total is at or under the limit; an existing file is statted, unlinked
and its size subtracted; the row deletion is added to the session either
way; commit happens after the loop, so an `unlink` error rolls the row
deletions back exactly as in the age pass. -/

structure EnforceResult where
  rowsDeleted : List Nat
  fs : FS
  total : Nat
  errored : Bool
deriving DecidableEq, Repr

/-- The deletion loop of `_enforce_storage_limit` over the rows sorted by
ascending creation time. -/
def enforceGo (maxB : Nat) : List Recording → Nat → FS → List Nat → EnforceResult
  | [], total, fs, pending =>
    { rowsDeleted := pending.reverse, fs := fs, total := total, errored := false }
  | r :: rest, total, fs, pending =>
    if total ≤ maxB then
      { rowsDeleted := pending.reverse, fs := fs, total := total, errored := false }
    else
      match FS.lookup fs r.file_path with
      | some entry =>
        if entry.raises then
          { rowsDeleted := [], fs := fs, total := total, errored := true }
        else
          enforceGo maxB rest (total - entry.size) (FS.remove fs r.file_path) (r.id :: pending)
      | none => enforceGo maxB rest total fs (r.id :: pending)

/-- The catalog query `order_by(Recording.created_at.asc())`. -/
def sortByCreated (recs : List Recording) : List Recording :=
  List.insertionSort (fun a b => a.created_at ≤ b.created_at) recs

/-- `_enforce_storage_limit` (lines 192-231), with the byte limit passed
directly (the source computes it as `max_size_gb * 1024**3`). -/
def enforce_storage_limit (maxB : Nat) (recs : List Recording) (fs : FS) : EnforceResult :=
  let total := fsTotal fs
  if total ≤ maxB then { rowsDeleted := [], fs := fs, total := total, errored := false }
  else enforceGo maxB (sortByCreated recs) total fs []

/-- Specification-side ghost: the running total after walking a list of
rows the way the deletion loop does (subtracting each existing file's
size).  Used to state that every deletion happened while the total still
exceeded the limit. -/
def delTotal (total : Nat) (fs : FS) : List Recording → Nat
  | [] => total
  | r :: rest =>
    match FS.lookup fs r.file_path with
    | some entry => delTotal (total - entry.size) (FS.remove fs r.file_path) rest
    | none => delTotal total fs rest

/-! ## Listing recordings (recording_manager.py `get_recordings`)

`if camera_id:` is a Python truthiness test, so both `None` and `0` skip
the per-camera filter; rows are ordered by `created_at` descending and
limited. -/

/-- The catalog query `order_by(Recording.created_at.desc())`. -/
def sortByCreatedDesc (recs : List Recording) : List Recording :=
  List.insertionSort (fun a b => b.created_at ≤ a.created_at) recs

/-- `get_recordings` (lines 233-256). -/
def get_recordings (camera_id : Option Int) (limit : Nat)
    (recs : List Recording) : List Recording :=
  let q :=
    match camera_id with
    | some c => if c != 0 then recs.filter (fun r => r.camera_id == c) else recs
    | none => recs
  (sortByCreatedDesc q).take limit

/-! ## Detection events (detection_engine.py) -/

/-- One detection produced by a sampling pass (label and confidence; the
bounding box and area ride along in the opaque payload). -/
structure Detection where
  label : String
  confidence : ℚ
deriving DecidableEq, Repr

/-- A row of the `events` table as written by `_save_detection_event`. -/
structure EventRow where
  camera_id : Int
  event_type : String
  label : String
  confidence : ℚ
  start_time : Int
  end_time : Int
deriving DecidableEq, Repr

/-- `_save_detection_event` (lines 121-145): one `Event` row per
detection, all stamped with the current time; no suppression state is
consulted or recorded. -/
def save_detection_event (camera_id : Int) (t : Int)
    (detections : List Detection) : List EventRow :=
  detections.map (fun d =>
    { camera_id := camera_id, event_type := "object_detection",
      label := d.label, confidence := d.confidence,
      start_time := t, end_time := t })

/-- The event-emitting tail of `_detection_thread` (lines 111-115) run
over a sequence of sampling passes, each a time and its detections:
`if detections: self._save_detection_event(...)`. -/
def detectionPasses (camera_id : Int)
    (passes : List (Int × List Detection)) : List EventRow :=
  match passes with
  | [] => []
  | p :: rest =>
    (if p.2.isEmpty then [] else save_detection_event camera_id p.1 p.2)
      ++ detectionPasses camera_id rest

/-! ## Motion detection (detection_engine.py `detect_motion`) -/

/-- An in-memory image: its shape and an opaque content token. -/
structure Image where
  height : Nat
  width : Nat
  pix : Nat
deriving DecidableEq, Repr

/-- The cv2 image pipeline used by `detect_motion`, modelled as an
abstract backend (cv2 is an external collaborator): grayscale
conversion, absolute difference, Gaussian blur, binary threshold,
dilation, and the list of contour areas of a mask. -/
structure CvOps where
  cvtGray : Image → Image
  absdiff : Image → Image → Image
  gaussianBlur : Image → Image
  thresholdBin : Image → Image
  dilate2 : Image → Image
  contourAreas : Image → List ℚ

/-- `detect_motion` (lines 147-183): `None` inputs short-circuit to
`(False, 0.0)`; otherwise the pipeline runs, contour areas above
`motion.min_area` are summed, the score is the motion area over the
frame area, and motion is detected when the score exceeds
`motion.sensitivity`. -/
def detect_motion (cv : CvOps) (min_area sensitivity : ℚ)
    (frame1 frame2 : Option Image) : Bool × ℚ :=
  match frame1, frame2 with
  | some f1, some f2 =>
    let diff := cv.absdiff (cv.cvtGray f1) (cv.cvtGray f2)
    let dilated := cv.dilate2 (cv.thresholdBin (cv.gaussianBlur diff))
    let areas := cv.contourAreas dilated
    let motion_area := (areas.filter (fun a => decide (min_area < a))).foldl (· + ·) 0
    let total_area : ℚ := (f1.height : ℚ) * (f1.width : ℚ)
    let motion_score := if 0 < total_area then motion_area / total_area else 0
    (decide (sensitivity < motion_score), motion_score)
  | _, _ => (false, 0)

/-! ## Helper lemmas about the frame queue -/

lemma publishFrame_maxsize (q : FrameQueue) (f : Nat) :
    (publishFrame q f).maxsize = q.maxsize := by
  unfold publishFrame
  split <;> rfl

lemma publishFrame_full_eq (q : FrameQueue) (f : Nat) (hf : q.full = true) :
    publishFrame q f = q := by
  simp [publishFrame, hf]

lemma publishFrame_length_le (q : FrameQueue) (f : Nat) (hpos : 0 < q.maxsize)
    (h : q.items.length ≤ q.maxsize) :
    (publishFrame q f).items.length ≤ q.maxsize := by
  by_cases hf : q.full = true
  · simpa [publishFrame_full_eq q f hf] using h
  · have hlt : q.items.length < q.maxsize := by
      unfold FrameQueue.full at hf
      simp only [decide_eq_true_eq, not_and, not_le] at hf
      exact hf hpos
    simp only [publishFrame, hf, Bool.false_eq_true, if_false, List.length_append,
      List.length_singleton]
    omega

lemma publishAll_length_le (q : FrameQueue) (frames : List Nat) (hpos : 0 < q.maxsize)
    (h : q.items.length ≤ q.maxsize) :
    (publishAll q frames).items.length ≤ q.maxsize ∧
    (publishAll q frames).maxsize = q.maxsize := by
  induction frames generalizing q with
  | nil => exact ⟨h, rfl⟩
  | cons a rest ih =>
    have hmax := publishFrame_maxsize q a
    have hlen := publishFrame_length_le q a hpos h
    have := ih (publishFrame q a) (hmax ▸ hpos) (hmax ▸ hlen)
    simpa [publishAll, hmax] using this

/-- C1: the capture loop never blocks on a full queue and the queue never
exceeds its capacity of 30 — but the overflow policy is drop-NEWEST, not
drop-oldest: with the queue holding the 30 frames `0..29` and frame `42`
arriving, the queue is returned unchanged; the new frame is not enqueued
and the oldest frame `0` is still at the front, refuting "the oldest
unread frame is dropped and the newly arrived frame is enqueued". -/
theorem C1_counterexample_drop_newest :
    publishFrame { items := List.range 30, maxsize := 30 } 42
      = { items := List.range 30, maxsize := 30 } ∧
    42 ∉ (publishFrame { items := List.range 30, maxsize := 30 } 42).items ∧
    (publishFrame { items := List.range 30, maxsize := 30 } 42).items.head? = some 0 := by
  refine ⟨?_, ?_, ?_⟩ <;> decide

/-- C1 (amended): for every sequence of frame arrivals published to a
subscriber queue of capacity 30, publishing never blocks (it is a total
function of the queue) and the queue length never exceeds 30; when a
frame arrives while the queue is full, the NEW frame is dropped and the
queue is left unchanged, so the oldest frames are retained. -/
theorem C1_bounded_drop_newest (q : FrameQueue) (frames : List Nat)
    (hcap : q.maxsize = 30) (hlen : q.items.length ≤ 30) :
    (publishAll q frames).items.length ≤ 30 ∧
    (∀ f, q.full = true → publishFrame q f = q) := by
  refine ⟨?_, fun f hf => publishFrame_full_eq q f hf⟩
  have := (publishAll_length_le q frames (by omega) (hcap ▸ hlen)).1
  omega

/-- Witness for `C1_bounded_drop_newest` at a concrete full queue. -/
theorem C1_bounded_drop_newest_witness :
    (publishAll { items := List.range 30, maxsize := 30 } [5, 6, 7]).items.length ≤ 30 ∧
    publishFrame { items := List.range 30, maxsize := 30 } 42
      = { items := List.range 30, maxsize := 30 } :=
  ⟨(C1_bounded_drop_newest { items := List.range 30, maxsize := 30 } [5, 6, 7] rfl
      (by decide)).1,
   (C1_bounded_drop_newest { items := List.range 30, maxsize := 30 } [5, 6, 7] rfl
      (by decide)).2 42 (by decide)⟩

/-- C5: there is no debounce/suppression window in the code — two
detections of label "person" at t=0 and t=3 (within any 5-second window)
each emit their own Event row, so two Events are emitted, not exactly
one. -/
theorem C5_counterexample_no_debounce :
    detectionPasses 1 [(0, [{ label := "person", confidence := 1 }]),
                       (3, [{ label := "person", confidence := 1 }])]
      = [{ camera_id := 1, event_type := "object_detection", label := "person",
           confidence := 1, start_time := 0, end_time := 0 },
         { camera_id := 1, event_type := "object_detection", label := "person",
           confidence := 1, start_time := 3, end_time := 3 }] ∧
    (detectionPasses 1 [(0, [{ label := "person", confidence := 1 }]),
                        (3, [{ label := "person", confidence := 1 }])]).length ≠ 1 := by
  exact ⟨rfl, by decide⟩

/-- C5 (amended): `_save_detection_event` applies no suppression at all:
every sampling pass with detections writes one Event row per detection,
so the number of Events emitted over any sequence of passes equals the
total number of detections, regardless of how recently an Event for the
same camera and label was emitted. -/
theorem C5_one_event_per_detection (camera_id : Int)
    (passes : List (Int × List Detection)) :
    (detectionPasses camera_id passes).length
      = (passes.map (fun p => p.2.length)).sum := by
  induction passes with
  | nil => rfl
  | cons p rest ih =>
    rcases p with ⟨t, ds⟩
    cases ds with
    | nil => simpa [detectionPasses] using ih
    | cons d ds => simp [detectionPasses, save_detection_event, ih]; omega

/-- C6: when the capture open fails, `start_camera` logs and returns
`False`; no retry is scheduled (the retry-delay component of the result
is `none`) and the camera never leaves the stopped state on its own,
refuting "a retry is scheduled after each failure with a non-decreasing
backoff delay". -/
theorem C6_counterexample_no_retry :
    start_camera false { is_running := false, hasCapture := false }
      = (false, { is_running := false, hasCapture := true }, none) := by
  decide

/-- C6 (amended): a failed open makes `start_camera` return `False`
without scheduling any retry — the camera is only re-attempted by a new
external `start_camera` call — and the first such call whose open
succeeds marks the camera running; the only delay in the capture path is
the constant 1-second sleep after an exception inside the capture loop. -/
theorem C6_no_backoff (st : CamState) (h : st.is_running = false) :
    start_camera false st = (false, { st with hasCapture := true }, none) ∧
    start_camera true st = (true, { is_running := true, hasCapture := true }, none) ∧
    (∀ s : CaptureState, captureStep s .exn = (s, 1)) := by
  refine ⟨?_, ?_, fun s => rfl⟩ <;> simp [start_camera, h]

/-- Witness for `C6_no_backoff` at the freshly-added camera state. -/
theorem C6_no_backoff_witness :
    start_camera false { is_running := false, hasCapture := false }
      = (false, { is_running := false, hasCapture := true }, none) ∧
    start_camera true { is_running := false, hasCapture := false }
      = (true, { is_running := true, hasCapture := true }, none) ∧
    captureStep initCaptureState .exn = (initCaptureState, 1) :=
  ⟨(C6_no_backoff { is_running := false, hasCapture := false } rfl).1,
   (C6_no_backoff { is_running := false, hasCapture := false } rfl).2.1,
   (C6_no_backoff { is_running := false, hasCapture := false } rfl).2.2 initCaptureState⟩

/-- C7: registration at segment close performs no `end_time > start_time`
validation: with both clock readings equal to 5, the row is persisted
(`isSome`) and satisfies `end_time ≤ start_time`, refuting "violating
rows rejected rather than persisted". -/
theorem C7_counterexample_no_validation :
    (closeRecording 1 5 5 0 [{ path := 0, size := 100, raises := false }] false).isSome
      = true ∧
    (closeRecording 1 5 5 0 [{ path := 0, size := 100, raises := false }] false).map
        (fun r => decide (r.start_time < r.end_time)) = some false := by
  exact ⟨rfl, rfl⟩

/-- C7 (amended): every segment close persists its Recording row
unconditionally — `start_time` and `end_time` are the two clock readings
with no `end > start` check (a violating pair is persisted, not
rejected) — with `duration = end_time - start_time` and `file_size`
equal to the on-disk size of the file at close when it exists and 0 when
it does not. -/
theorem C7_close_persists_unconditionally (cid s e : Int) (p : Nat) (fs : FS)
    (eb : Bool) :
    ∃ r, closeRecording cid s e p fs eb = some r ∧
      r.start_time = s ∧ r.end_time = e ∧ r.duration = e - s ∧
      (∀ en, FS.lookup fs p = some en → r.file_size = en.size) ∧
      (FS.lookup fs p = none → r.file_size = 0) := by
  refine ⟨_, rfl, rfl, rfl, rfl, ?_, ?_⟩
  · intro en hen
    simp [closeRecording, hen]
  · intro hnone
    simp [closeRecording, hnone]

/-- Witness for `C7_close_persists_unconditionally` at a concrete close:
the row is persisted (not `none`) with `file_size = 0` for a missing
file. -/
theorem C7_close_persists_witness :
    closeRecording 1 10 10 0 [] false ≠ none ∧
    (closeRecording 1 10 10 0 [] false).map (fun r => r.file_size) = some 0 := by
  obtain ⟨r, hr, -, -, -, -, habs⟩ := C7_close_persists_unconditionally 1 10 10 0 [] false
  rw [hr]
  exact ⟨by simp, by simp [habs rfl]⟩

/-- C10: `detect_motion` returns exactly `(False, 0.0)` whenever either
input frame is `None`; the result is independent of the cv2 pipeline
(universally quantified over the backend), so no image computation is
performed. -/
theorem C10_none_frames_short_circuit (cv : CvOps) (min_area sensitivity : ℚ)
    (f1 f2 : Option Image) :
    detect_motion cv min_area sensitivity none f2 = (false, 0) ∧
    detect_motion cv min_area sensitivity f1 none = (false, 0) := by
  constructor
  · cases f2 <;> rfl
  · cases f1 <;> rfl

/-- C8: the fps computation divides 30 by the time between the two clock
readings of the SAME iteration — `last_frame_time` is assigned the
current frame's arrival time immediately before being used as the
subtrahend — so whenever a 30th frame arrives, the new fps gauge is
`30 / (tFps - tArr)` for that single frame, independent of when the
previous 29 frames arrived, instead of 30 divided by the span of the
last 30 arrivals. -/
theorem C8_fps_window_slip (st : CaptureState) (f : Nat) (tArr tFps : ℚ)
    (h : st.frame_count = 29) :
    ((captureStep st (.frame f tArr tFps)).1).fps = 30 / (tFps - tArr) := by
  simp [captureStep, h]

/-- Witness for `C8_fps_window_slip`: a camera that has seen 29 frames,
the first at t = 0, receives its 30th at t = 58 with the fps clock read
at t = 59; the code sets fps to `30 / (59 - 58) = 30`, while 30 divided
by the 58-second span of the last 30 arrivals is `30 / 58 ≠ 30`. -/
theorem C8_fps_window_slip_witness :
    ({ last_frame := none, last_frame_time := 56, fps := 0, frame_count := 29,
       frame_queue := { items := [], maxsize := 30 } } : CaptureState).frame_count = 29 ∧
    ((captureStep
        { last_frame := none, last_frame_time := 56, fps := 0, frame_count := 29,
          frame_queue := { items := [], maxsize := 30 } }
        (.frame 30 58 59)).1).fps = 30 / (59 - 58) ∧
    (30 : ℚ) / (59 - 58) = 30 ∧ (30 : ℚ) ≠ 30 / (58 - 0) :=
  ⟨rfl,
    C8_fps_window_slip
      { last_frame := none, last_frame_time := 56, fps := 0, frame_count := 29,
        frame_queue := { items := [], maxsize := 30 } } 30 58 59 rfl,
    by norm_num, by norm_num⟩

/-! ## Helper lemmas about the eviction passes -/

lemma cleanupGo_ok (recs : List Recording) :
    ∀ (fs : FS) (pending : List Nat), (∀ e ∈ fs, e.raises = false) →
    (cleanupGo recs fs pending).rowsDeleted
        = pending.reverse ++ recs.map (fun r => r.id) ∧
    (cleanupGo recs fs pending).errored = false := by
  induction recs with
  | nil => intro fs pending _; simp [cleanupGo]
  | cons r rest ih =>
    intro fs pending h
    cases hl : FS.lookup fs r.file_path with
    | some entry =>
      have hra : entry.raises = false := h entry (List.mem_of_find?_eq_some hl)
      have hrec := ih (FS.remove fs r.file_path) (r.id :: pending)
        (fun e he => h e (List.mem_of_mem_filter he))
      simpa [cleanupGo, hl, hra, List.reverse_cons, List.append_assoc] using hrec
    | none =>
      have hrec := ih fs (r.id :: pending) h
      simpa [cleanupGo, hl, List.reverse_cons, List.append_assoc] using hrec

lemma cleanupGo_err_rollback (recs : List Recording) :
    ∀ (fs : FS) (pending : List Nat), (cleanupGo recs fs pending).errored = true →
    (cleanupGo recs fs pending).rowsDeleted = [] := by
  induction recs with
  | nil => intro fs pending h; simp [cleanupGo] at h
  | cons r rest ih =>
    intro fs pending h
    cases hl : FS.lookup fs r.file_path with
    | some entry =>
      by_cases hra : entry.raises = true
      · simp [cleanupGo, hl, hra]
      · rw [Bool.not_eq_true] at hra
        rw [cleanupGo, hl] at h ⊢
        simp only [hra, Bool.false_eq_true, if_false] at h ⊢
        exact ih _ _ h
    | none =>
      rw [cleanupGo, hl] at h ⊢
      exact ih _ _ h

lemma enforceGo_err_rollback (maxB : Nat) (recs : List Recording) :
    ∀ (total : Nat) (fs : FS) (pending : List Nat),
    (enforceGo maxB recs total fs pending).errored = true →
    (enforceGo maxB recs total fs pending).rowsDeleted = [] := by
  induction recs with
  | nil => intro total fs pending h; simp [enforceGo] at h
  | cons r rest ih =>
    intro total fs pending h
    by_cases htot : total ≤ maxB
    · simp [enforceGo, htot] at h
    · cases hl : FS.lookup fs r.file_path with
      | some entry =>
        by_cases hra : entry.raises = true
        · simp [enforceGo, htot, hl, hra]
        · rw [Bool.not_eq_true] at hra
          rw [enforceGo, if_neg htot, hl] at h ⊢
          simp only [hra, Bool.false_eq_true, if_false] at h ⊢
          exact ih _ _ _ h
      | none =>
        rw [enforceGo, if_neg htot, hl] at h ⊢
        exact ih _ _ _ h

/-- A concrete recording created at integer time `d` with id and path `i`. -/
def recAt (i : Nat) (d : Int) : Recording :=
  { id := i, camera_id := 1, start_time := d, end_time := d + 60, file_path := i,
    file_size := 10, duration := 60, event_based := false, created_at := d }

/-- C3: one age-eviction pass (with no file-delete errors) removes
exactly the catalog rows whose `created_at` is strictly older than
`now - retention_days`; in particular with `retention_days = 7` and
recordings created at day 0, day 6 and day 8, a pass at `now = day 8`
deletes exactly the day-0 recording. -/
theorem C3_age_eviction (retention_days now : Int) (recs : List Recording) (fs : FS)
    (hok : ∀ e ∈ fs, e.raises = false) :
    (cleanup_old_recordings retention_days now recs fs).rowsDeleted
      = (recs.filter
          (fun r => decide (r.created_at < cutoffDate retention_days now))).map
          (fun r => r.id) ∧
    (cleanup_old_recordings 7 (8 * 86400)
        [recAt 0 0, recAt 6 (6 * 86400), recAt 8 (8 * 86400)]
        [{ path := 0, size := 10, raises := false },
         { path := 6, size := 10, raises := false },
         { path := 8, size := 10, raises := false }]).rowsDeleted = [0] := by
  constructor
  · have := cleanupGo_ok
      (recs.filter (fun r => decide (r.created_at < cutoffDate retention_days now)))
      fs [] hok
    simpa [cleanup_old_recordings] using this.1
  · decide

/-- Witness for `C3_age_eviction` at the day-0/6/8 catalog. -/
theorem C3_age_eviction_witness :
    ((cleanup_old_recordings 7 (8 * 86400)
        [recAt 0 0, recAt 6 (6 * 86400), recAt 8 (8 * 86400)]
        [{ path := 0, size := 10, raises := false },
         { path := 6, size := 10, raises := false },
         { path := 8, size := 10, raises := false }]).rowsDeleted
      = ([recAt 0 0, recAt 6 (6 * 86400), recAt 8 (8 * 86400)].filter
          (fun r => decide (r.created_at < cutoffDate 7 (8 * 86400)))).map
          (fun r => r.id) ∧
     (cleanup_old_recordings 7 (8 * 86400)
        [recAt 0 0, recAt 6 (6 * 86400), recAt 8 (8 * 86400)]
        [{ path := 0, size := 10, raises := false },
         { path := 6, size := 10, raises := false },
         { path := 8, size := 10, raises := false }]).rowsDeleted = [0]) :=
  C3_age_eviction 7 (8 * 86400)
      [recAt 0 0, recAt 6 (6 * 86400), recAt 8 (8 * 86400)]
      [{ path := 0, size := 10, raises := false },
       { path := 6, size := 10, raises := false },
       { path := 8, size := 10, raises := false }] (by decide)

/-- C4: a file-delete error that is not "not found" does NOT let the pass
continue with the remaining items.  With two expired recordings — R1
whose unlink raises, R2 whose file would delete cleanly — the whole pass
aborts: no catalog row at all is removed (the uncommitted deletions are
rolled back by `db.close()`), R2's file is still on disk, refuting "the
pass continues for the remaining items". -/
theorem C4_counterexample_pass_aborts :
    (cleanup_old_recordings 7 (10 * 86400) [recAt 1 0, recAt 2 0]
        [{ path := 1, size := 10, raises := true },
         { path := 2, size := 10, raises := false }])
      = { rowsDeleted := [],
          fs := [{ path := 1, size := 10, raises := true },
                 { path := 2, size := 10, raises := false }],
          errored := true } ∧
    2 ∉ (cleanup_old_recordings 7 (10 * 86400) [recAt 1 0, recAt 2 0]
        [{ path := 1, size := 10, raises := true },
         { path := 2, size := 10, raises := false }]).rowsDeleted := by
  constructor <;> decide

/-- C4 (amended): during eviction a targeted Recording whose file is
already absent is treated as success — when the pass raises no error its
catalog row is removed like any other; but a file-delete error that is
not "not found" aborts the ENTIRE pass, not just that item: the pass
stops there, the session is closed without commit, so no catalog row at
all is deleted in that pass (everything is retried on the next pass) —
in both the age pass and the capacity pass. -/
theorem C4_eviction_error_handling (retention_days now : Int) (maxB : Nat)
    (recs : List Recording) (fs : FS) :
    ((∀ e ∈ fs, e.raises = false) →
      ∀ r ∈ recs.filter
          (fun r => decide (r.created_at < cutoffDate retention_days now)),
        FS.lookup fs r.file_path = none →
        r.id ∈ (cleanup_old_recordings retention_days now recs fs).rowsDeleted) ∧
    ((cleanup_old_recordings retention_days now recs fs).errored = true →
      (cleanup_old_recordings retention_days now recs fs).rowsDeleted = []) ∧
    ((enforce_storage_limit maxB recs fs).errored = true →
      (enforce_storage_limit maxB recs fs).rowsDeleted = []) := by
  refine ⟨?_, ?_, ?_⟩
  · intro hok r hr _
    have := cleanupGo_ok
      (recs.filter (fun r => decide (r.created_at < cutoffDate retention_days now)))
      fs [] hok
    rw [cleanup_old_recordings, this.1]
    simpa using List.mem_map_of_mem (fun r => r.id) hr
  · intro h
    rw [cleanup_old_recordings] at h ⊢
    exact cleanupGo_err_rollback _ _ _ h
  · intro h
    rw [enforce_storage_limit] at h ⊢
    by_cases htot : fsTotal fs ≤ maxB
    · simp [htot] at h
    · simp only [htot, if_false] at h ⊢
      exact enforceGo_err_rollback maxB (sortByCreated recs) _ _ _ h

/-- Witness for `C4_eviction_error_handling`: an expired recording whose
file is already absent still has its row removed by the pass. -/
theorem C4_eviction_error_handling_witness :
    1 ∈ (cleanup_old_recordings 7 (10 * 86400) [recAt 1 0] []).rowsDeleted :=
  (C4_eviction_error_handling 7 (10 * 86400) 0 [recAt 1 0] []).1
    (by decide) (recAt 1 0) (by decide) (by decide)

/-- The deletion loop of the capacity pass, characterised: with no
file-delete errors it deletes some prefix of the (already sorted) row
list; the final total is the ghost total after that prefix; the loop
runs out of rows or ends at or under the limit; and before every single
deletion the running total still exceeded the limit (so no deletion was
unnecessary). -/
lemma enforceGo_spec (maxB : Nat) (recs : List Recording) :
    ∀ (total : Nat) (fs : FS) (pending : List Nat),
    (∀ e ∈ fs, e.raises = false) →
    ∃ k, k ≤ recs.length ∧
      (enforceGo maxB recs total fs pending).rowsDeleted
        = pending.reverse ++ (recs.take k).map (fun r => r.id) ∧
      (enforceGo maxB recs total fs pending).total = delTotal total fs (recs.take k) ∧
      ((enforceGo maxB recs total fs pending).total ≤ maxB ∨ k = recs.length) ∧
      (∀ j, j < k → maxB < delTotal total fs (recs.take j)) ∧
      (enforceGo maxB recs total fs pending).errored = false := by
  induction recs with
  | nil =>
    intro total fs pending _
    exact ⟨0, Nat.le_refl 0, by simp [enforceGo], by simp [enforceGo, delTotal],
      Or.inr rfl, fun j hj => absurd hj (Nat.not_lt_zero j), by simp [enforceGo]⟩
  | cons r rest ih =>
    intro total fs pending h
    by_cases htot : total ≤ maxB
    · refine ⟨0, Nat.zero_le _, ?_, ?_, ?_, fun j hj => absurd hj (Nat.not_lt_zero j), ?_⟩
      · simp [enforceGo, htot]
      · simp [enforceGo, htot, delTotal]
      · exact Or.inl (by simp [enforceGo, htot])
      · simp [enforceGo, htot]
    · cases hl : FS.lookup fs r.file_path with
      | some entry =>
        have hra : entry.raises = false := h entry (List.mem_of_find?_eq_some hl)
        have hstep : enforceGo maxB (r :: rest) total fs pending
            = enforceGo maxB rest (total - entry.size) (FS.remove fs r.file_path)
                (r.id :: pending) := by
          rw [enforceGo, if_neg htot, hl]
          simp [hra]
        obtain ⟨k, hk, hrows, htotal, hdisj, hnec, herr⟩ :=
          ih (total - entry.size) (FS.remove fs r.file_path) (r.id :: pending)
            (fun e he => h e (List.mem_of_mem_filter he))
        refine ⟨k + 1, by simpa using Nat.succ_le_succ hk, ?_, ?_, ?_, ?_, ?_⟩
        · rw [hstep, hrows]
          simp [List.take_succ_cons, List.reverse_cons, List.append_assoc]
        · rw [hstep, htotal, List.take_succ_cons, delTotal, hl]
        · rcases hdisj with h1 | h2
          · exact Or.inl (hstep ▸ h1)
          · exact Or.inr (by simp [h2])
        · intro j hj
          cases j with
          | zero => simpa [delTotal] using Nat.lt_of_not_le htot
          | succ j =>
            have := hnec j (Nat.lt_of_succ_lt_succ hj)
            rw [List.take_succ_cons, delTotal, hl]
            exact this
        · rw [hstep]; exact herr
      | none =>
        have hstep : enforceGo maxB (r :: rest) total fs pending
            = enforceGo maxB rest total fs (r.id :: pending) := by
          rw [enforceGo, if_neg htot, hl]
        obtain ⟨k, hk, hrows, htotal, hdisj, hnec, herr⟩ :=
          ih total fs (r.id :: pending) h
        refine ⟨k + 1, by simpa using Nat.succ_le_succ hk, ?_, ?_, ?_, ?_, ?_⟩
        · rw [hstep, hrows]
          simp [List.take_succ_cons, List.reverse_cons, List.append_assoc]
        · rw [hstep, htotal, List.take_succ_cons, delTotal, hl]
        · rcases hdisj with h1 | h2
          · exact Or.inl (hstep ▸ h1)
          · exact Or.inr (by simp [h2])
        · intro j hj
          cases j with
          | zero => simpa [delTotal] using Nat.lt_of_not_le htot
          | succ j =>
            have := hnec j (Nat.lt_of_succ_lt_succ hj)
            rw [List.take_succ_cons, delTotal, hl]
            exact this
        · rw [hstep]; exact herr

/-- The catalog query really yields rows in ascending creation time. -/
lemma sortByCreated_sorted (recs : List Recording) :
    List.Sorted (fun a b : Recording => a.created_at ≤ b.created_at)
      (sortByCreated recs) := by
  haveI : IsTotal Recording (fun a b => a.created_at ≤ b.created_at) :=
    ⟨fun a b => le_total a.created_at b.created_at⟩
  haveI : IsTrans Recording (fun a b => a.created_at ≤ b.created_at) :=
    ⟨fun a b c h1 h2 => le_trans h1 h2⟩
  exact List.sorted_insertionSort _ recs

/-- The descending catalog query really yields rows in descending
creation time. -/
lemma sortByCreatedDesc_sorted (recs : List Recording) :
    List.Sorted (fun a b : Recording => b.created_at ≤ a.created_at)
      (sortByCreatedDesc recs) := by
  haveI : IsTotal Recording (fun a b : Recording => b.created_at ≤ a.created_at) :=
    ⟨fun a b => le_total b.created_at a.created_at⟩
  haveI : IsTrans Recording (fun a b : Recording => b.created_at ≤ a.created_at) :=
    ⟨fun a b c h1 h2 => le_trans h2 h1⟩
  exact List.sorted_insertionSort _ recs

/-- C2: one capacity-eviction pass (no file-delete errors) deletes a
prefix of the rows taken in ascending creation-time order — i.e. oldest
first — it stops only when the running total is at or under the limit or
the rows run out, and before every deletion the running total still
exceeded the limit, so it never deletes more than necessary; in
particular with a 100 MB limit and recordings A, B, C of 40 MB each
(A oldest), exactly A is deleted and the final total is 80 MB. -/
theorem C2_capacity_eviction (maxB : Nat) (recs : List Recording) (fs : FS)
    (hok : ∀ e ∈ fs, e.raises = false) :
    (List.Sorted (fun a b : Recording => a.created_at ≤ b.created_at)
        (sortByCreated recs) ∧
      ∃ k, k ≤ (sortByCreated recs).length ∧
        (enforce_storage_limit maxB recs fs).rowsDeleted
          = ((sortByCreated recs).take k).map (fun r => r.id) ∧
        ((enforce_storage_limit maxB recs fs).total ≤ maxB
          ∨ k = (sortByCreated recs).length) ∧
        (∀ j, j < k → maxB < delTotal (fsTotal fs) fs ((sortByCreated recs).take j))) ∧
    ((enforce_storage_limit 104857600
          [recAt 0 0, recAt 1 86400, recAt 2 172800]
          [{ path := 0, size := 41943040, raises := false },
           { path := 1, size := 41943040, raises := false },
           { path := 2, size := 41943040, raises := false }]).rowsDeleted = [0] ∧
      (enforce_storage_limit 104857600
          [recAt 0 0, recAt 1 86400, recAt 2 172800]
          [{ path := 0, size := 41943040, raises := false },
           { path := 1, size := 41943040, raises := false },
           { path := 2, size := 41943040, raises := false }]).total = 83886080) := by
  refine ⟨⟨sortByCreated_sorted recs, ?_⟩, by decide, by decide⟩
  by_cases htot : fsTotal fs ≤ maxB
  · refine ⟨0, Nat.zero_le _, ?_, ?_, fun j hj => absurd hj (Nat.not_lt_zero j)⟩
    · simp [enforce_storage_limit, htot]
    · exact Or.inl (by simp [enforce_storage_limit, htot])
  · obtain ⟨k, hk, hrows, htotal, hdisj, hnec, -⟩ :=
      enforceGo_spec maxB (sortByCreated recs) (fsTotal fs) fs [] hok
    refine ⟨k, hk, ?_, ?_, ?_⟩
    · rw [enforce_storage_limit]
      simp only [htot, if_false]
      simpa using hrows
    · rw [enforce_storage_limit]
      simp only [htot, if_false]
      exact hdisj
    · exact hnec

/-- Witness for `C2_capacity_eviction` at the 40/40/40 MB example. -/
theorem C2_capacity_eviction_witness :
    (enforce_storage_limit 104857600
        [recAt 0 0, recAt 1 86400, recAt 2 172800]
        [{ path := 0, size := 41943040, raises := false },
         { path := 1, size := 41943040, raises := false },
         { path := 2, size := 41943040, raises := false }]).rowsDeleted = [0] ∧
    (enforce_storage_limit 104857600
        [recAt 0 0, recAt 1 86400, recAt 2 172800]
        [{ path := 0, size := 41943040, raises := false },
         { path := 1, size := 41943040, raises := false },
         { path := 2, size := 41943040, raises := false }]).total = 83886080 :=
  (C2_capacity_eviction 104857600
      [recAt 0 0, recAt 1 86400, recAt 2 172800]
      [{ path := 0, size := 41943040, raises := false },
       { path := 1, size := 41943040, raises := false },
       { path := 2, size := 41943040, raises := false }] (by decide)).2

/-- C9: `get_recordings` returns at most `limit` rows, ordered by
creation time descending, and the per-camera filter is applied only when
`camera_id` is truthy — `camera_id = 0` is falsy in Python, so it
returns recordings of all cameras, identically to `camera_id = None`,
while a nonzero id filters to that camera. -/
theorem C9_get_recordings (camera_id : Option Int) (limit : Nat)
    (recs : List Recording) (c : Int) (hc : c ≠ 0) :
    (get_recordings camera_id limit recs).length ≤ limit ∧
    List.Sorted (fun a b : Recording => b.created_at ≤ a.created_at)
      (get_recordings camera_id limit recs) ∧
    get_recordings (some 0) limit recs = get_recordings none limit recs ∧
    get_recordings (some c) limit recs
      = (sortByCreatedDesc (recs.filter (fun r => r.camera_id == c))).take limit := by
  refine ⟨List.length_take_le limit _, ?_, ?_, ?_⟩
  · exact List.Pairwise.sublist (List.take_sublist limit _)
      (sortByCreatedDesc_sorted _)
  · rfl
  · rw [get_recordings]
    simp [bne_iff_ne.mpr hc]

/-- Witness for `C9_get_recordings` at a concrete two-camera catalog. -/
theorem C9_get_recordings_witness :
    (5 : Int) ≠ 0 ∧
    ((get_recordings (some 0) 1 [recAt 0 0, recAt 1 86400]).length ≤ 1 ∧
     List.Sorted (fun a b : Recording => b.created_at ≤ a.created_at)
       (get_recordings (some 0) 1 [recAt 0 0, recAt 1 86400]) ∧
     get_recordings (some 0) 1 [recAt 0 0, recAt 1 86400]
       = get_recordings none 1 [recAt 0 0, recAt 1 86400] ∧
     get_recordings (some 5) 1 [recAt 0 0, recAt 1 86400]
       = (sortByCreatedDesc
           ([recAt 0 0, recAt 1 86400].filter (fun r => r.camera_id == 5))).take 1) :=
  ⟨by decide, C9_get_recordings (some 0) 1 [recAt 0 0, recAt 1 86400] 5 (by decide)⟩

end ALTA
